import Mathlib

/-!
Shallow embedding of the LinguaFlow live-translator hook
(`src/hooks/useLiveTranslator.ts`), the shared types (`src/types.ts`) and the
waveform visualizer (`src/components/Visualizer.tsx`).

The hook is a collection of event handlers over mutable refs and React state.
We embed it as a record of state fields (`HookState`) together with pure step
functions, one per handler (`connect` success and catch paths, `disconnect`,
and the session callbacks `onopen`, `onmessage`, `onclose`, `onerror`, plus
the script-processor `onaudioprocess` handler).  Externally observable actions
(SDK calls, playback scheduling, resource teardown) are returned as a list of
`Effect`s alongside the new state.  Audio-clock times and durations are
rationals.
-/

namespace LinguaFlow

/-- The enum `ConnectionState` from `src/types.ts` (lines 15-20): a four-value enum. -/
inductive ConnectionState where
  | DISCONNECTED
  | CONNECTING
  | CONNECTED
  | ERROR
deriving DecidableEq, Repr

/-- The `sender` field of a chat message: the union type `'user' | 'model'`
from `src/types.ts`. -/
inductive Sender where
  | user
  | model
deriving DecidableEq, Repr

/-- The interface `ChatMessage` from `src/types.ts` (the optional `language` and
`isTranslating` fields are never set by the hook and are omitted). -/
structure ChatMessage where
  id : String
  text : String
  sender : Sender
  timestamp : Nat
deriving DecidableEq, Repr

/-- Modelled from the spec: `AUDIO_INPUT_SAMPLE_RATE` lives in
`src/constants.ts`, which is not among the provided sources.  The spec only
calls the input a fixed-size block of raw PCM samples; the concrete rate
(16 kHz, the usual rate for this SDK's PCM input) is irrelevant to every
claim. -/
def AUDIO_INPUT_SAMPLE_RATE : Nat := 16000

/-- Modelled from the spec: `AUDIO_OUTPUT_SAMPLE_RATE` lives in
`src/constants.ts`, which is not among the provided sources.  The concrete
value (24 kHz output audio) is irrelevant to every claim; only its
positivity is used. -/
def AUDIO_OUTPUT_SAMPLE_RATE : Nat := 24000

/-- The buffer-size argument passed to `createScriptProcessor` in `connect`
(`src/hooks/useLiveTranslator.ts` line 111): 4096 samples per delivered
buffer. -/
def scriptProcessorBufferSize : Nat := 4096

/-- The input-channel-count argument passed to `createScriptProcessor` in
`connect` (`src/hooks/useLiveTranslator.ts` line 111): mono. -/
def scriptProcessorInputChannels : Nat := 1

/-- Modelled from the spec: `createPcmBlob` lives in `src/utils/audio.ts`,
which is not among the provided sources.  Per the spec the handler
base64-encodes the raw samples into the SDK's PCM blob format; we model the
blob as the raw sample list paired with its PCM mime type, an injective
reshaping with no further transformation. -/
structure Blob where
  samples : List ℚ
  mimeType : String
deriving DecidableEq, Repr

/-- Modelled from the spec: the body of `createPcmBlob`
(`src/utils/audio.ts`, absent from the sources) — wrap the captured samples
as a PCM blob at the given rate. -/
def createPcmBlob (data : List ℚ) (sampleRate : Nat) : Blob :=
  { samples := data, mimeType := "audio/pcm;rate=" ++ toString sampleRate }

/-- Modelled from the spec: `decodeAudioData` lives in `src/utils/audio.ts`,
which is not among the provided sources.  It decodes 16-bit little-endian PCM
bytes into an audio buffer, so the buffer holds `bytes/2` frames and its
`duration` is `frames / sampleRate` seconds.  Only the duration of the decoded
buffer is consumed by the hook, so we model exactly that. -/
def decodeAudioDataDuration (bytes : List Nat) (sampleRate : Nat) : ℚ :=
  ((bytes.length / 2 : Nat) : ℚ) / (sampleRate : ℚ)

/-- One entry of `message.toolCall.functionCalls` as consumed by `onmessage`
(`src/hooks/useLiveTranslator.ts` lines 178-195): its `id`, `name` and the
`language` field of its arguments. -/
structure FunctionCall where
  id : String
  name : String
  argLanguage : String
deriving DecidableEq, Repr

/-- The projection of a `LiveServerMessage` actually consumed by `onmessage`:
the tool calls (empty list when `message.toolCall` is absent), the two
transcription fragments, the `turnComplete` flag, and the first part's inline
audio payload.  The payload is modelled as the base64-decoded byte list
(`none` when absent; `some []` when the base64 string is empty, hence falsy
in the source's truthiness test). -/
structure ServerMessage where
  toolCalls : List FunctionCall
  inputTranscription : Option String
  outputTranscription : Option String
  turnComplete : Bool
  inlineData : Option (List Nat)
deriving DecidableEq, Repr

/-- Environment read by one `onmessage` invocation: the output context's
`currentTime` at the moment of scheduling and the value of `Date.now()` used
to build message ids and timestamps. -/
structure MsgEnv where
  now : ℚ
  dateNow : Nat
deriving DecidableEq, Repr

/-- The hook's state: the three React state cells (`connectionState`,
`detectedLanguage`, `messages`) and the mutable refs of
`useLiveTranslator` (`src/hooks/useLiveTranslator.ts` lines 13-33).
Resource refs (contexts, analysers, processor, source, stream, session
promise) are modelled by whether they currently hold a live object; the
scheduled-sources set keeps each source's start time and duration. -/
structure HookState where
  connectionState : ConnectionState
  detectedLanguage : String
  messages : List ChatMessage
  inputContext : Bool
  outputContext : Bool
  inputAnalyser : Bool
  outputAnalyser : Bool
  processor : Bool
  source : Bool
  stream : Bool
  session : Bool
  nextStartTime : ℚ
  scheduledSources : List (ℚ × ℚ)
  currentInputTrans : String
  currentOutputTrans : String
deriving DecidableEq, Repr

/-- The initial values of the state cells and refs
(`src/hooks/useLiveTranslator.ts` lines 13-33). -/
def initState : HookState :=
  { connectionState := ConnectionState.DISCONNECTED
    detectedLanguage := "Waiting for speech..."
    messages := []
    inputContext := false
    outputContext := false
    inputAnalyser := false
    outputAnalyser := false
    processor := false
    source := false
    stream := false
    session := false
    nextStartTime := 0
    scheduledSources := []
    currentInputTrans := ""
    currentOutputTrans := "" }

/-- Externally observable actions performed by the handlers: SDK sends,
tool responses, playback scheduling, and the teardown actions of
`disconnect`. -/
inductive Effect where
  | alerted (text : String)
  | sentRealtimeInput (media : Blob)
  | sentToolResponse (id : String) (name : String)
  | scheduledPlayback (start : ℚ) (duration : ℚ)
  | closedSession
  | stoppedTracks
  | disconnectedProcessor
  | disconnectedSource
  | closedInputContext
  | stoppedSource (start : ℚ) (duration : ℚ)
  | closedOutputContext
deriving DecidableEq, Repr

/-- The `disconnect` callback (`src/hooks/useLiveTranslator.ts` lines 35-77): set the
connection state to DISCONNECTED, close the session, stop the media tracks,
disconnect processor and source, close the input context, stop and clear
every scheduled source, close the output context, and reset the
detected-language display.  `messages`, `nextStartTime` and the transcription
buffers are not touched. -/
def disconnectStep (s : HookState) : HookState × List Effect :=
  ({ s with
      connectionState := ConnectionState.DISCONNECTED
      session := false
      stream := false
      processor := false
      source := false
      inputContext := false
      scheduledSources := []
      outputContext := false
      detectedLanguage := "Waiting for speech..." },
   (if s.session then [Effect.closedSession] else []) ++
   (if s.stream then [Effect.stoppedTracks] else []) ++
   (if s.processor then [Effect.disconnectedProcessor] else []) ++
   (if s.source then [Effect.disconnectedSource] else []) ++
   (if s.inputContext then [Effect.closedInputContext] else []) ++
   s.scheduledSources.map (fun sd => Effect.stoppedSource sd.1 sd.2) ++
   (if s.outputContext then [Effect.closedOutputContext] else []))

/-- The early-return branch of `connect` when the api key is empty
(`src/hooks/useLiveTranslator.ts` lines 80-83): alert and change nothing. -/
def connectEmptyKeyStep (s : HookState) : HookState × List Effect :=
  (s, [Effect.alerted "Please provide a valid API Key."])

/-- The successful body of `connect` (`src/hooks/useLiveTranslator.ts`
lines 85-277): set CONNECTING, then allocate both audio contexts, both
analysers, the microphone stream, the media-stream source, the script
processor, and start the live-session connection. -/
def connectOkStep (s : HookState) : HookState × List Effect :=
  ({ s with
      connectionState := ConnectionState.CONNECTING
      inputContext := true
      outputContext := true
      inputAnalyser := true
      outputAnalyser := true
      stream := true
      source := true
      processor := true
      session := true }, [])

/-- The `catch` block of `connect` (`src/hooks/useLiveTranslator.ts`
lines 279-282): log and set the connection state to ERROR. -/
def connectCatchStep (s : HookState) : HookState × List Effect :=
  ({ s with connectionState := ConnectionState.ERROR }, [])

/-- The `onopen` callback (`src/hooks/useLiveTranslator.ts` lines 158-175):
set CONNECTED and reset `nextStartTime` to the output context's current time
(`|| 0` when the ref is null), then install the audio-process handler. -/
def onopenStep (s : HookState) (now : ℚ) : HookState × List Effect :=
  ({ s with
      connectionState := ConnectionState.CONNECTED
      nextStartTime := if s.outputContext then now else 0 }, [])

/-- The `onaudioprocess` handler installed by `onopen`
(`src/hooks/useLiveTranslator.ts` lines 164-173): read channel 0 of the
delivered input buffer, wrap it with `createPcmBlob` at the input sample
rate, and send it to the session with exactly one `sendRealtimeInput` call
(guarded by the session ref being non-null). -/
def onaudioprocessStep (s : HookState) (inputBuffer : List (List ℚ)) :
    HookState × List Effect :=
  let inputData := inputBuffer.getD 0 []
  let pcmBlob := createPcmBlob inputData AUDIO_INPUT_SAMPLE_RATE
  if s.session then (s, [Effect.sentRealtimeInput pcmBlob]) else (s, [])

/-- The last `detectedLanguage` reported by the tool-call loop of `onmessage`
(`src/hooks/useLiveTranslator.ts` lines 178-195): each function call named
`report_language` overwrites the display with its `language` argument. -/
def reportedLanguage (current : String) : List FunctionCall → String
  | [] => current
  | fc :: rest =>
      reportedLanguage
        (if fc.name = "report_language" then fc.argLanguage else current) rest

/-- The tool responses sent by the tool-call loop of `onmessage`
(`src/hooks/useLiveTranslator.ts` lines 184-192): one `sendToolResponse` per
`report_language` call, fired through the session promise only when the
session ref is non-null. -/
def toolResponses (session : Bool) (fcs : List FunctionCall) : List Effect :=
  if session then
    (fcs.filter (fun fc => fc.name = "report_language")).map
      (fun fc => Effect.sentToolResponse fc.id fc.name)
  else []

/-- The transcription accumulation of `onmessage`
(`src/hooks/useLiveTranslator.ts` lines 198-206): a fragment is appended to
its buffer when it is truthy (present and non-empty). -/
def appendIfTruthy (acc : String) : Option String → String
  | some t => if t = "" then acc else acc ++ t
  | none => acc

/-- Drop leading whitespace characters from a character list. -/
def dropLeadingWs : List Char → List Char
  | [] => []
  | c :: cs => if c.isWhitespace then dropLeadingWs cs else c :: cs

/-- JavaScript's `String.prototype.trim()` as used on the accumulated
transcripts (`src/hooks/useLiveTranslator.ts` lines 209-210): strip
whitespace from both ends.  (Implemented structurally on the character list
so proofs can evaluate it.) -/
def jsTrim (s : String) : String :=
  String.mk ((dropLeadingWs ((dropLeadingWs s.data).reverse)).reverse)

/-- The `turnComplete` block of `onmessage`
(`src/hooks/useLiveTranslator.ts` lines 208-231): trim both accumulated
transcripts; when at least one is non-empty append a `user` message carrying
the trimmed input transcript and then a `model` message carrying the trimmed
output transcript; in either case clear both buffers. -/
def finishTurn (s : HookState) (dateNow : Nat) : HookState :=
  let userText := jsTrim s.currentInputTrans
  let modelText := jsTrim s.currentOutputTrans
  { s with
      messages :=
        if userText = "" ∧ modelText = "" then s.messages
        else
          s.messages ++
            [{ id := toString dateNow, text := userText,
               sender := Sender.user, timestamp := dateNow },
             { id := toString (dateNow + 1), text := modelText,
               sender := Sender.model, timestamp := dateNow }]
      currentInputTrans := ""
      currentOutputTrans := "" }

/-- The audio-output block of `onmessage`
(`src/hooks/useLiveTranslator.ts` lines 234-266): when the first part carries
truthy inline audio and the output context is live, decode it, bump
`nextStartTime` to `now + 0.05` if it fell behind the context's current time,
start the source at `nextStartTime`, advance `nextStartTime` by the buffer's
duration, and remember the scheduled source. -/
def handleAudioOutput (s : HookState) (inlineData : Option (List Nat)) (now : ℚ) :
    HookState × List Effect :=
  match inlineData with
  | some bytes =>
      if bytes ≠ [] ∧ s.outputContext then
        let dur := decodeAudioDataDuration bytes AUDIO_OUTPUT_SAMPLE_RATE
        let start :=
          if s.nextStartTime < now then now + 5 / 100 else s.nextStartTime
        ({ s with
            nextStartTime := start + dur
            scheduledSources := s.scheduledSources ++ [(start, dur)] },
         [Effect.scheduledPlayback start dur])
      else (s, [])
  | none => (s, [])

/-- The transcription accumulation of `onmessage`
(`src/hooks/useLiveTranslator.ts` lines 198-206) applied to the state: both
buffers grow by their fragment when it is truthy. -/
def accumulateTranscriptions (s : HookState) (m : ServerMessage) : HookState :=
  { s with
      currentInputTrans := appendIfTruthy s.currentInputTrans m.inputTranscription
      currentOutputTrans := appendIfTruthy s.currentOutputTrans m.outputTranscription }

/-- The state reached by `onmessage` just before the audio-output block:
tool calls handled, transcriptions accumulated, and the turn closed when
`turnComplete` is set (`src/hooks/useLiveTranslator.ts` lines 178-231). -/
def preAudioState (s : HookState) (m : ServerMessage) (dateNow : Nat) : HookState :=
  let s1 : HookState :=
    { s with detectedLanguage := reportedLanguage s.detectedLanguage m.toolCalls }
  let s2 := accumulateTranscriptions s1 m
  if m.turnComplete then finishTurn s2 dateNow else s2

/-- The `onmessage` callback (`src/hooks/useLiveTranslator.ts`
lines 176-267): handle tool calls, accumulate transcriptions, close the turn
when `turnComplete` is set, then schedule any returned audio. -/
def onmessageStep (s : HookState) (m : ServerMessage) (env : MsgEnv) :
    HookState × List Effect :=
  let s3 := preAudioState s m env.dateNow
  let a := handleAudioOutput s3 m.inlineData env.now
  (a.1, toolResponses s.session m.toolCalls ++ a.2)

/-- The `onclose` callback (`src/hooks/useLiveTranslator.ts` lines 268-270):
set the connection state to DISCONNECTED. -/
def oncloseStep (s : HookState) : HookState × List Effect :=
  ({ s with connectionState := ConnectionState.DISCONNECTED }, [])

/-- The `onerror` callback (`src/hooks/useLiveTranslator.ts` lines 271-275):
log, set the connection state to ERROR, then invoke `disconnect` to clean
up. -/
def onerrorStep (s : HookState) : HookState × List Effect :=
  disconnectStep { s with connectionState := ConnectionState.ERROR }

/-- The events that can reach the hook: the three outcomes of pressing
connect, pressing disconnect, the four session callbacks, a delivered
microphone buffer, and a visualizer animation frame carrying the two
analysers' time-domain readings (`src/components/Visualizer.tsx`
lines 23-50). -/
inductive Event where
  | connectOk
  | connectCatch
  | connectEmptyKey
  | disconnect
  | onopen (now : ℚ)
  | onmessage (m : ServerMessage) (env : MsgEnv)
  | onclose
  | onerror
  | onaudioprocess (inputBuffer : List (List ℚ))
  | render (inputReadings : List Nat) (outputReadings : List Nat)
deriving DecidableEq

/-- Dispatch one event to its handler.  A `render` frame only paints the
canvas (`src/components/Visualizer.tsx`): it neither changes the hook state
nor performs any session or audio action. -/
def step (s : HookState) : Event → HookState × List Effect
  | Event.connectOk => connectOkStep s
  | Event.connectCatch => connectCatchStep s
  | Event.connectEmptyKey => connectEmptyKeyStep s
  | Event.disconnect => disconnectStep s
  | Event.onopen now => onopenStep s now
  | Event.onmessage m env => onmessageStep s m env
  | Event.onclose => oncloseStep s
  | Event.onerror => onerrorStep s
  | Event.onaudioprocess buf => onaudioprocessStep s buf
  | Event.render _ _ => (s, [])

/-- Run a sequence of events, collecting all effects in order. -/
def run (s : HookState) : List Event → HookState × List Effect
  | [] => (s, [])
  | e :: es =>
      let a := step s e
      let b := run a.1 es
      (b.1, a.2 ++ b.2)

/-- One point of the waveform path drawn by the visualizer's `draw` loop
(`src/components/Visualizer.tsx` lines 35-46): sample `i` is plotted at
`x = i · width/bufferLength`, `y = (value/128) · height/2`. -/
def drawFrame (dataArray : List Nat) (width height : ℚ) : List (ℚ × ℚ) :=
  (List.range dataArray.length).map
    (fun (i : Nat) =>
      ((i : ℚ) * (width / (dataArray.length : ℚ)),
       ((dataArray.getD i 0 : ℚ) / 128) * height / 2)) ++
  [(width, height / 2)]

/-- Erase the analyser readings carried by a `render` event; all other events
are kept as they are.  Two event traces describe "the same run up to analyser
readings" exactly when their images under this map agree. -/
def scrubReadings : Event → Event
  | Event.render _ _ => Event.render [] []
  | e => e

/-- The playback schedule recorded in an effect list: the `(start, duration)`
pairs of its `scheduledPlayback` effects, in order. -/
def schedulesOf (effs : List Effect) : List (ℚ × ℚ) :=
  effs.filterMap
    (fun e =>
      match e with
      | Effect.scheduledPlayback start dur => some (start, dur)
      | _ => none)

/-- The audio chunks recorded in an effect list: the payloads of its
`sentRealtimeInput` effects, in order. -/
def sentChunksOf (effs : List Effect) : List Blob :=
  effs.filterMap
    (fun e =>
      match e with
      | Effect.sentRealtimeInput b => some b
      | _ => none)

/-- Process a sequence of server messages through `onmessage`, collecting
every scheduled playback as `(now, start, duration)` — the output context's
current time at the moment of scheduling, the scheduled start time, and the
decoded buffer's duration. -/
def collectSchedules (s : HookState) :
    List (ServerMessage × MsgEnv) → List (ℚ × ℚ × ℚ)
  | [] => []
  | p :: rest =>
      let a := onmessageStep s p.1 p.2
      (schedulesOf a.2).map (fun sd => (p.2.now, sd.1, sd.2)) ++
        collectSchedules a.1 rest

/-- Soundness of a schedule from playback clock `t`: each entry starts no
earlier than the context time at its scheduling moment and no earlier than
`t`, has positive duration, and the rest is sound from `start + duration`. -/
def GoodFrom (t : ℚ) : List (ℚ × ℚ × ℚ) → Prop
  | [] => True
  | e :: rest =>
      e.1 ≤ e.2.1 ∧ t ≤ e.2.1 ∧ 0 < e.2.2 ∧ GoodFrom (e.2.1 + e.2.2) rest

/-- The messages list alternates complete user/model pairs. -/
def pairedSenders : List ChatMessage → Prop
  | [] => True
  | [_] => False
  | u :: v :: rest =>
      u.sender = Sender.user ∧ v.sender = Sender.model ∧ pairedSenders rest

/-- A concrete audio-only server message: two PCM bytes, no tool calls, no
transcriptions, turn not complete. -/
def audioMsg : ServerMessage :=
  { toolCalls := []
    inputTranscription := none
    outputTranscription := none
    turnComplete := false
    inlineData := some [0, 0] }

/-- A concrete state in which a session is live: all capture and playback
resources are allocated and one source is scheduled. -/
def sampleActiveState : HookState :=
  { connectionState := ConnectionState.CONNECTED
    detectedLanguage := "French"
    messages := []
    inputContext := true
    outputContext := true
    inputAnalyser := true
    outputAnalyser := true
    processor := true
    source := true
    stream := true
    session := true
    nextStartTime := 2
    scheduledSources := [(1, 1)]
    currentInputTrans := ""
    currentOutputTrans := "" }

/-- A concrete turn-closing server message with non-empty transcripts. -/
def turnMsg : ServerMessage :=
  { toolCalls := []
    inputTranscription := some " hi "
    outputTranscription := some "hola"
    turnComplete := true
    inlineData := none }

/-! ### Helper lemmas -/

/-- The audio-output block only touches `nextStartTime` and `scheduledSources`. -/
lemma handleAudio_preserves (s : HookState) (d : Option (List Nat)) (now : ℚ) :
    (handleAudioOutput s d now).1.connectionState = s.connectionState ∧
    (handleAudioOutput s d now).1.detectedLanguage = s.detectedLanguage ∧
    (handleAudioOutput s d now).1.messages = s.messages ∧
    (handleAudioOutput s d now).1.session = s.session ∧
    (handleAudioOutput s d now).1.outputContext = s.outputContext ∧
    (handleAudioOutput s d now).1.currentInputTrans = s.currentInputTrans ∧
    (handleAudioOutput s d now).1.currentOutputTrans = s.currentOutputTrans := by
  unfold handleAudioOutput
  cases d with
  | none => exact ⟨rfl, rfl, rfl, rfl, rfl, rfl, rfl⟩
  | some bytes =>
      dsimp only
      split
      · exact ⟨rfl, rfl, rfl, rfl, rfl, rfl, rfl⟩
      · exact ⟨rfl, rfl, rfl, rfl, rfl, rfl, rfl⟩

/-- The microphone handler never changes the hook state. -/
lemma onaudioprocessStep_fst (s : HookState) (buf : List (List ℚ)) :
    (onaudioprocessStep s buf).1 = s := by
  unfold onaudioprocessStep
  dsimp only
  split <;> rfl

/-- The pre-audio stage of `onmessage` only touches the detected language,
the transcription buffers and the messages list. -/
lemma preAudioState_preserves (s : HookState) (m : ServerMessage) (n : Nat) :
    (preAudioState s m n).connectionState = s.connectionState ∧
    (preAudioState s m n).inputContext = s.inputContext ∧
    (preAudioState s m n).outputContext = s.outputContext ∧
    (preAudioState s m n).processor = s.processor ∧
    (preAudioState s m n).source = s.source ∧
    (preAudioState s m n).stream = s.stream ∧
    (preAudioState s m n).session = s.session ∧
    (preAudioState s m n).nextStartTime = s.nextStartTime ∧
    (preAudioState s m n).scheduledSources = s.scheduledSources := by
  unfold preAudioState accumulateTranscriptions
  cases h : m.turnComplete <;>
    exact ⟨rfl, rfl, rfl, rfl, rfl, rfl, rfl, rfl, rfl⟩

/-- The `onmessage` callback never changes the connection state. -/
lemma onmessageStep_connectionState (s : HookState) (m : ServerMessage)
    (env : MsgEnv) :
    (onmessageStep s m env).1.connectionState = s.connectionState := by
  unfold onmessageStep
  dsimp only
  rw [(handleAudio_preserves _ _ _).1]
  exact (preAudioState_preserves s m env.dateNow).1

lemma schedulesOf_append (a b : List Effect) :
    schedulesOf (a ++ b) = schedulesOf a ++ schedulesOf b := by
  simp [schedulesOf]

lemma schedulesOf_toolResponses (b : Bool) (fcs : List FunctionCall) :
    schedulesOf (toolResponses b fcs) = [] := by
  unfold toolResponses
  split
  · induction (fcs.filter (fun fc => fc.name = "report_language")) with
    | nil => rfl
    | cons fc rest ih => simp [schedulesOf] at ih ⊢
  · rfl

/-- Full characterization of `onmessage` on a message carrying truthy inline
audio while the output context is live: exactly one buffer is scheduled, at
`nextStartTime` bumped to `now + 0.05` when it fell behind, and
`nextStartTime` then advances by the decoded buffer's duration. -/
lemma onmessage_audio_spec (s : HookState) (m : ServerMessage) (env : MsgEnv)
    (bytes : List Nat) (hd : m.inlineData = some bytes) (hne : bytes ≠ [])
    (hctx : s.outputContext = true) :
    schedulesOf (onmessageStep s m env).2 =
      [((if s.nextStartTime < env.now then env.now + 5 / 100 else s.nextStartTime),
        decodeAudioDataDuration bytes AUDIO_OUTPUT_SAMPLE_RATE)] ∧
    (onmessageStep s m env).1.nextStartTime =
      (if s.nextStartTime < env.now then env.now + 5 / 100 else s.nextStartTime) +
        decodeAudioDataDuration bytes AUDIO_OUTPUT_SAMPLE_RATE ∧
    (onmessageStep s m env).1.outputContext = true := by
  have hp := preAudioState_preserves s m env.dateNow
  unfold onmessageStep
  dsimp only
  rw [hd]
  unfold handleAudioOutput
  dsimp only
  rw [if_pos ⟨hne, by rw [hp.2.2.1]; exact hctx⟩]
  rw [hp.2.2.2.2.2.2.2.1]
  refine ⟨?_, rfl, by rw [hp.2.2.1]; exact hctx⟩
  rw [schedulesOf_append, schedulesOf_toolResponses]
  rfl

/-- The `onmessage` callback on a message without inline audio schedules nothing and
leaves the playback clock alone. -/
lemma onmessage_none_spec (s : HookState) (m : ServerMessage) (env : MsgEnv)
    (hd : m.inlineData = none) :
    schedulesOf (onmessageStep s m env).2 = [] ∧
    (onmessageStep s m env).1.nextStartTime = s.nextStartTime ∧
    (onmessageStep s m env).1.outputContext = s.outputContext := by
  have hp := preAudioState_preserves s m env.dateNow
  unfold onmessageStep
  dsimp only
  rw [hd]
  unfold handleAudioOutput
  dsimp only
  refine ⟨?_, hp.2.2.2.2.2.2.2.1, hp.2.2.1⟩
  rw [schedulesOf_append, schedulesOf_toolResponses]
  rfl

/-- A decoded buffer of at least one full 16-bit frame has positive
duration. -/
lemma decode_duration_pos (bytes : List Nat) (h : 2 ≤ bytes.length) :
    0 < decodeAudioDataDuration bytes AUDIO_OUTPUT_SAMPLE_RATE := by
  unfold decodeAudioDataDuration AUDIO_OUTPUT_SAMPLE_RATE
  have h1 : 0 < bytes.length / 2 := by omega
  apply div_pos
  · exact_mod_cast h1
  · norm_num

/-- The bumped start time is never in the past and never before the tracked
next start time. -/
lemma start_ge (s : HookState) (now : ℚ) :
    now ≤ (if s.nextStartTime < now then now + 5 / 100 else s.nextStartTime) ∧
    s.nextStartTime ≤
      (if s.nextStartTime < now then now + 5 / 100 else s.nextStartTime) := by
  by_cases h : s.nextStartTime < now
  · rw [if_pos h]
    constructor <;> linarith
  · rw [if_neg h]
    constructor <;> linarith [not_lt.mp h]

/-- The collected schedule of any message sequence is sound from the
starting state's playback clock, provided the output context is live and
every inline audio payload holds at least one full frame. -/
lemma collectSchedules_good (inputs : List (ServerMessage × MsgEnv)) :
    ∀ s : HookState, s.outputContext = true →
      (∀ p ∈ inputs, ∀ bytes, p.1.inlineData = some bytes → 2 ≤ bytes.length) →
      GoodFrom s.nextStartTime (collectSchedules s inputs) := by
  induction inputs with
  | nil => intro s _ _; trivial
  | cons p rest ih =>
      intro s hctx hlen
      unfold collectSchedules
      dsimp only
      cases hd : p.1.inlineData with
      | none =>
          have h := onmessage_none_spec s p.1 p.2 hd
          rw [h.1]
          simp only [List.map_nil, List.nil_append]
          have hrest := ih (onmessageStep s p.1 p.2).1
            (by rw [h.2.2]; exact hctx)
            (fun q hq => hlen q (List.mem_cons_of_mem _ hq))
          rw [h.2.1] at hrest
          exact hrest
      | some bytes =>
          have hblen : 2 ≤ bytes.length :=
            hlen p (List.mem_cons_self _ _) bytes hd
          have hne : bytes ≠ [] := by
            intro hb
            rw [hb] at hblen
            simp at hblen
          have h := onmessage_audio_spec s p.1 p.2 bytes hd hne hctx
          rw [h.1]
          simp only [List.map_cons, List.map_nil, List.cons_append,
            List.nil_append]
          refine ⟨(start_ge s p.2.now).1, (start_ge s p.2.now).2,
            decode_duration_pos bytes hblen, ?_⟩
          have hrest := ih (onmessageStep s p.1 p.2).1
            (by rw [h.2.2])
            (fun q hq => hlen q (List.mem_cons_of_mem _ hq))
          rw [h.2.1] at hrest
          exact hrest

lemma goodFrom_mem :
    ∀ (L : List (ℚ × ℚ × ℚ)) (t : ℚ), GoodFrom t L → ∀ e ∈ L, e.1 ≤ e.2.1
  | [], _, _, e, he => absurd he (List.not_mem_nil e)
  | a :: rest, t, h, e, he => by
      rcases List.mem_cons.mp he with rfl | he'
      · exact h.1
      · exact goodFrom_mem rest _ h.2.2.2 e he'

lemma goodFrom_chain :
    ∀ (L : List (ℚ × ℚ × ℚ)) (t : ℚ), GoodFrom t L →
      List.Chain'
        (fun a b : ℚ × ℚ × ℚ => a.2.1 < b.2.1 ∧ a.2.1 + a.2.2 ≤ b.2.1) L
  | [], _, _ => List.chain'_nil
  | [a], _, _ => List.chain'_singleton a
  | a :: b :: rest, t, h => by
      have h' := h.2.2.2
      have hc := goodFrom_chain (b :: rest) _ h'
      refine List.chain'_cons.mpr ⟨⟨?_, h'.2.1⟩, hc⟩
      have hdur := h.2.2.1
      have hle := h'.2.1
      linarith

lemma pairedSenders_append_pair :
    ∀ (L : List ChatMessage) (u v : ChatMessage),
      pairedSenders L → u.sender = Sender.user → v.sender = Sender.model →
      pairedSenders (L ++ [u, v])
  | [], _, _, _, hu, hv => ⟨hu, hv, trivial⟩
  | [_], _, _, h, _, _ => h.elim
  | _ :: _ :: rest, u, v, h, hu, hv =>
      ⟨h.1, h.2.1, pairedSenders_append_pair rest u v h.2.2 hu hv⟩

/-- The `onmessage` callback either leaves the messages list unchanged or appends one
user message immediately followed by one model message. -/
lemma onmessageStep_messages (s : HookState) (m : ServerMessage)
    (env : MsgEnv) :
    (onmessageStep s m env).1.messages = s.messages ∨
    ∃ u v, (onmessageStep s m env).1.messages = s.messages ++ [u, v] ∧
      u.sender = Sender.user ∧ v.sender = Sender.model := by
  have hp := handleAudio_preserves (preAudioState s m env.dateNow) m.inlineData env.now
  unfold onmessageStep
  dsimp only
  rw [hp.2.2.1]
  unfold preAudioState accumulateTranscriptions
  dsimp only
  split
  · unfold finishTurn
    dsimp only
    split
    · exact Or.inl rfl
    · exact Or.inr ⟨_, _, rfl, rfl, rfl⟩
  · exact Or.inl rfl

/-- Only `onmessage` can modify the messages list, and then only by
appending a user/model pair. -/
lemma step_messages (s : HookState) (e : Event) :
    (step s e).1.messages = s.messages ∨
    ∃ u v, (step s e).1.messages = s.messages ++ [u, v] ∧
      u.sender = Sender.user ∧ v.sender = Sender.model := by
  cases e with
  | onmessage m env => exact onmessageStep_messages s m env
  | onaudioprocess buf =>
      have h : (step s (Event.onaudioprocess buf)).1 = s :=
        onaudioprocessStep_fst s buf
      rw [h]
      exact Or.inl rfl
  | _ => exact Or.inl rfl

lemma run_paired :
    ∀ (t : List Event) (s : HookState),
      pairedSenders s.messages → pairedSenders (run s t).1.messages
  | [], _, h => h
  | e :: es, s, h => by
      unfold run
      dsimp only
      apply run_paired es
      rcases step_messages s e with h1 | ⟨u, v, h1, hu, hv⟩
      · rw [h1]; exact h
      · rw [h1]; exact pairedSenders_append_pair _ _ _ h hu hv

lemma paired_length : ∀ (L : List ChatMessage), pairedSenders L → L.length % 2 = 0
  | [], _ => rfl
  | [_], h => h.elim
  | _ :: _ :: rest, h => by
      have ih := paired_length rest h.2.2
      simp only [List.length_cons]
      omega

lemma paired_getD :
    ∀ (L : List ChatMessage), pairedSenders L → ∀ i, i < L.length →
      (L.getD i ⟨"", "", Sender.user, 0⟩).sender =
        if i % 2 = 0 then Sender.user else Sender.model
  | [], _, _, hi => absurd hi (by simp)
  | [_], h, _, _ => h.elim
  | u :: v :: rest, h, 0, _ => h.1
  | u :: v :: rest, h, 1, _ => h.2.1
  | u :: v :: rest, h, (i + 2), hi => by
      have ih := paired_getD rest h.2.2 i (by
        simp only [List.length_cons] at hi
        omega)
      rw [show (u :: v :: rest).getD (i + 2) ⟨"", "", Sender.user, 0⟩ =
            rest.getD i ⟨"", "", Sender.user, 0⟩ from rfl,
          show (i + 2) % 2 = i % 2 from Nat.add_mod_right i 2]
      exact ih

/-- Every handler is blind to analyser readings: stepping an event equals
stepping its reading-scrubbed form. -/
lemma step_scrub (s : HookState) (e : Event) :
    step s e = step s (scrubReadings e) := by
  cases e <;> rfl

/-- Runs agree on any two traces with the same scrubbed events. -/
lemma run_scrub_congr :
    ∀ (t₁ t₂ : List Event) (s : HookState),
      t₁.map scrubReadings = t₂.map scrubReadings → run s t₁ = run s t₂
  | [], [], _, _ => rfl
  | [], _ :: _, _, h => by simp at h
  | _ :: _, [], _, h => by simp at h
  | e₁ :: es₁, e₂ :: es₂, s, h => by
      simp only [List.map_cons, List.cons.injEq] at h
      have hstep : step s e₁ = step s e₂ := by
        rw [step_scrub s e₁, h.1, ← step_scrub s e₂]
      unfold run
      rw [hstep]
      dsimp only
      rw [run_scrub_congr es₁ es₂ (step s e₂).1 h.2]

/-! ### The claims -/

/-- C5: the connection status is a four-value state machine.  Every value of
`ConnectionState` is one of DISCONNECTED, CONNECTING, CONNECTED, ERROR, and
the state is changed only by `connect` (to CONNECTING on entry, ERROR in its
catch block, and unchanged on the empty-key early return), `disconnect` (to
DISCONNECTED), `onopen` (to CONNECTED), `onclose` (to DISCONNECTED) and
`onerror` (to ERROR, followed by the `disconnect` it invokes); `onmessage`,
the microphone handler and the visualizer leave it unchanged. -/
theorem c5_connection_state_machine :
    (∀ c : ConnectionState,
        c = ConnectionState.DISCONNECTED ∨ c = ConnectionState.CONNECTING ∨
        c = ConnectionState.CONNECTED ∨ c = ConnectionState.ERROR) ∧
    (∀ s, (connectOkStep s).1.connectionState = ConnectionState.CONNECTING) ∧
    (∀ s, (connectCatchStep s).1.connectionState = ConnectionState.ERROR) ∧
    (∀ s, (connectEmptyKeyStep s).1 = s) ∧
    (∀ s, (disconnectStep s).1.connectionState = ConnectionState.DISCONNECTED) ∧
    (∀ s now, (onopenStep s now).1.connectionState = ConnectionState.CONNECTED) ∧
    (∀ s, (oncloseStep s).1.connectionState = ConnectionState.DISCONNECTED) ∧
    (∀ s, onerrorStep s =
        disconnectStep { s with connectionState := ConnectionState.ERROR }) ∧
    (∀ s m env, (onmessageStep s m env).1.connectionState = s.connectionState) ∧
    (∀ s buf, (onaudioprocessStep s buf).1.connectionState = s.connectionState) ∧
    (∀ s a b, step s (Event.render a b) = (s, [])) := by
  refine ⟨?_, fun _ => rfl, fun _ => rfl, fun _ => rfl, fun _ => rfl,
    fun _ _ => rfl, fun _ => rfl, fun _ => rfl,
    fun s m env => onmessageStep_connectionState s m env,
    fun s buf => by rw [onaudioprocessStep_fst], fun _ _ _ => rfl⟩
  intro c
  cases c
  · exact Or.inl rfl
  · exact Or.inr (Or.inl rfl)
  · exact Or.inr (Or.inr (Or.inl rfl))
  · exact Or.inr (Or.inr (Or.inr rfl))

/-- C1: playback scheduling uses audio-clock arithmetic.  For every audio
message, the returned buffer is scheduled to start at the tracked
next-start-time — bumped to the output context's current time plus 0.05
seconds when it has fallen behind — and after scheduling, next-start-time
advances by exactly the decoded buffer's duration. -/
theorem c1_playback_clock_arithmetic (s : HookState) (m : ServerMessage)
    (env : MsgEnv) (bytes : List Nat) (hd : m.inlineData = some bytes)
    (hne : bytes ≠ []) (hctx : s.outputContext = true) :
    schedulesOf (onmessageStep s m env).2 =
      [((if s.nextStartTime < env.now then env.now + 5 / 100 else s.nextStartTime),
        decodeAudioDataDuration bytes AUDIO_OUTPUT_SAMPLE_RATE)] ∧
    (onmessageStep s m env).1.nextStartTime =
      (if s.nextStartTime < env.now then env.now + 5 / 100 else s.nextStartTime) +
        decodeAudioDataDuration bytes AUDIO_OUTPUT_SAMPLE_RATE := by
  have h := onmessage_audio_spec s m env bytes hd hne hctx
  exact ⟨h.1, h.2.1⟩

/-- C3: one microphone chunk, one send.  The script processor is created
with a fixed 4096-sample mono buffer, and the handler reads channel 0,
wraps it with `createPcmBlob`, and performs exactly one `sendRealtimeInput`
call, with no other transformation. -/
theorem c3_fixed_chunk_pipeline :
    scriptProcessorBufferSize = 4096 ∧ scriptProcessorInputChannels = 1 ∧
    ∀ (s : HookState) (inputBuffer : List (List ℚ)), s.session = true →
      onaudioprocessStep s inputBuffer =
        (s, [Effect.sentRealtimeInput
              (createPcmBlob (inputBuffer.getD 0 []) AUDIO_INPUT_SAMPLE_RATE)]) := by
  refine ⟨rfl, rfl, ?_⟩
  intro s buf hs
  unfold onaudioprocessStep
  dsimp only
  rw [if_pos hs]

/-- C7, counterexample: the session-error step does NOT leave the capture and
playback resources unchanged.  From a live state the `onerror` callback stops
the media stream, drops the processor, closes both audio contexts and clears
the scheduled sources, because it invokes the `disconnect` cleanup. -/
theorem c7_counterexample :
    ¬((onerrorStep sampleActiveState).1.stream = sampleActiveState.stream ∧
      (onerrorStep sampleActiveState).1.processor = sampleActiveState.processor ∧
      (onerrorStep sampleActiveState).1.inputContext = sampleActiveState.inputContext ∧
      (onerrorStep sampleActiveState).1.outputContext = sampleActiveState.outputContext ∧
      (onerrorStep sampleActiveState).1.scheduledSources =
        sampleActiveState.scheduledSources) := by
  decide

/-- C7, amended: when the live session reports an error, the program does
perform a recovery step of its own — the `onerror` callback sets ERROR and
then invokes the full `disconnect` cleanup, which closes the session, stops
the media stream, disconnects the processor and source, closes both audio
contexts, and stops and clears all scheduled sources, leaving the connection
state DISCONNECTED; the chat messages are preserved. -/
theorem c7_amended (s : HookState) :
    (onerrorStep s).1.connectionState = ConnectionState.DISCONNECTED ∧
    (onerrorStep s).1.session = false ∧
    (onerrorStep s).1.stream = false ∧
    (onerrorStep s).1.processor = false ∧
    (onerrorStep s).1.source = false ∧
    (onerrorStep s).1.inputContext = false ∧
    (onerrorStep s).1.outputContext = false ∧
    (onerrorStep s).1.scheduledSources = [] ∧
    (onerrorStep s).1.messages = s.messages := by
  exact ⟨rfl, rfl, rfl, rfl, rfl, rfl, rfl, rfl, rfl⟩

/-- C8: after the `onerror` callback completes, the observable connection
state is DISCONNECTED rather than ERROR, because `onerror` first sets ERROR
and then invokes `disconnect`, whose first action sets DISCONNECTED; the
ERROR state is the final state of the `connect` catch path. -/
theorem c8_onerror_ends_disconnected (s : HookState) :
    (onerrorStep s).1.connectionState = ConnectionState.DISCONNECTED ∧
    onerrorStep s =
      disconnectStep { s with connectionState := ConnectionState.ERROR } ∧
    (connectCatchStep s).1.connectionState = ConnectionState.ERROR := by
  exact ⟨rfl, rfl, rfl⟩

/-- C10: `disconnect` preserves the chat transcript — the messages list is
unchanged — while it resets the connection state to DISCONNECTED, resets the
detected-language display, and releases every audio and session resource. -/
theorem c10_disconnect_preserves_messages (s : HookState) :
    (disconnectStep s).1.messages = s.messages ∧
    (disconnectStep s).1.connectionState = ConnectionState.DISCONNECTED ∧
    (disconnectStep s).1.detectedLanguage = "Waiting for speech..." ∧
    (disconnectStep s).1.session = false ∧
    (disconnectStep s).1.stream = false ∧
    (disconnectStep s).1.processor = false ∧
    (disconnectStep s).1.source = false ∧
    (disconnectStep s).1.inputContext = false ∧
    (disconnectStep s).1.outputContext = false ∧
    (disconnectStep s).1.scheduledSources = [] := by
  exact ⟨rfl, rfl, rfl, rfl, rfl, rfl, rfl, rfl, rfl, rfl⟩

/-- C4: transcript assembly.  Transcription fragments are accumulated by
string concatenation in arrival order; on every message with `turnComplete`
set, if at least one trimmed accumulated transcript is non-empty exactly two
messages are appended — first a user message with the trimmed input
transcript, then a model message with the trimmed output transcript — and
both accumulation buffers are reset to empty in either case. -/
theorem c4_transcript_assembly (s : HookState) (m : ServerMessage)
    (env : MsgEnv) :
    ((onmessageStep s m env).1.currentInputTrans =
       if m.turnComplete then ""
       else appendIfTruthy s.currentInputTrans m.inputTranscription) ∧
    ((onmessageStep s m env).1.currentOutputTrans =
       if m.turnComplete then ""
       else appendIfTruthy s.currentOutputTrans m.outputTranscription) ∧
    (m.turnComplete = false → (onmessageStep s m env).1.messages = s.messages) ∧
    (m.turnComplete = true →
      (onmessageStep s m env).1.messages =
        if jsTrim (appendIfTruthy s.currentInputTrans m.inputTranscription) = "" ∧
           jsTrim (appendIfTruthy s.currentOutputTrans m.outputTranscription) = ""
        then s.messages
        else s.messages ++
          [{ id := toString env.dateNow,
             text := jsTrim (appendIfTruthy s.currentInputTrans m.inputTranscription),
             sender := Sender.user, timestamp := env.dateNow },
           { id := toString (env.dateNow + 1),
             text := jsTrim (appendIfTruthy s.currentOutputTrans m.outputTranscription),
             sender := Sender.model, timestamp := env.dateNow }]) := by
  have hp := handleAudio_preserves (preAudioState s m env.dateNow) m.inlineData env.now
  unfold onmessageStep
  dsimp only
  refine ⟨?_, ?_, ?_, ?_⟩
  · rw [hp.2.2.2.2.2.1]
    unfold preAudioState accumulateTranscriptions
    cases m.turnComplete <;> rfl
  · rw [hp.2.2.2.2.2.2]
    unfold preAudioState accumulateTranscriptions
    cases m.turnComplete <;> rfl
  · intro h
    rw [hp.2.2.1]
    unfold preAudioState accumulateTranscriptions
    rw [h]
    rfl
  · intro h
    rw [hp.2.2.1]
    unfold preAudioState accumulateTranscriptions finishTurn
    rw [h]
    rfl

/-- C2: playback is never scheduled in the past and never overlaps.  Over
any sequence of messages handled by `onmessage` from a state with a live
output context (each inline audio payload holding at least one full 16-bit
frame), every scheduled buffer starts no earlier than the output context's
current time at the moment of scheduling, start times are strictly
increasing, and each start time is at least the previous start time plus
the previous buffer's duration. -/
theorem c2_playback_no_past_no_overlap (s : HookState)
    (inputs : List (ServerMessage × MsgEnv)) (hctx : s.outputContext = true)
    (hlen : ∀ p ∈ inputs, ∀ bytes, p.1.inlineData = some bytes →
      2 ≤ bytes.length) :
    (∀ e ∈ collectSchedules s inputs, e.1 ≤ e.2.1) ∧
    List.Chain'
      (fun a b : ℚ × ℚ × ℚ => a.2.1 < b.2.1 ∧ a.2.1 + a.2.2 ≤ b.2.1)
      (collectSchedules s inputs) := by
  have h := collectSchedules_good inputs s hctx hlen
  exact ⟨goodFrom_mem _ _ h, goodFrom_chain _ _ h⟩

/-- Witness for C2 on a concrete two-message audio sequence. -/
theorem c2_witness :
    sampleActiveState.outputContext = true ∧
    (∀ e ∈ collectSchedules sampleActiveState
        [(audioMsg, ⟨1, 0⟩), (audioMsg, ⟨5, 0⟩)], e.1 ≤ e.2.1) ∧
    List.Chain'
      (fun a b : ℚ × ℚ × ℚ => a.2.1 < b.2.1 ∧ a.2.1 + a.2.2 ≤ b.2.1)
      (collectSchedules sampleActiveState
        [(audioMsg, ⟨1, 0⟩), (audioMsg, ⟨5, 0⟩)]) := by
  have hlen : ∀ p ∈ [((audioMsg : ServerMessage), (⟨1, 0⟩ : MsgEnv)),
      (audioMsg, ⟨5, 0⟩)],
      ∀ bytes, p.1.inlineData = some bytes → 2 ≤ bytes.length := by
    intro p hp bytes hb
    have hp1 : p.1 = audioMsg := by
      rcases List.mem_cons.mp hp with h | h
      · rw [h]
      · rcases List.mem_cons.mp h with h2 | h2
        · rw [h2]
        · exact absurd h2 (List.not_mem_nil p)
    rw [hp1] at hb
    simp only [audioMsg, Option.some.injEq] at hb
    subst hb
    decide
  have h := c2_playback_no_past_no_overlap sampleActiveState
    [(audioMsg, ⟨1, 0⟩), (audioMsg, ⟨5, 0⟩)] rfl hlen
  exact ⟨rfl, h.1, h.2⟩

/-- Witness for C4 at a concrete state and turn-closing message. -/
theorem c4_witness :
    turnMsg.turnComplete = true ∧
    (onmessageStep sampleActiveState turnMsg ⟨0, 7⟩).1.currentInputTrans = "" ∧
    (onmessageStep sampleActiveState turnMsg ⟨0, 7⟩).1.currentOutputTrans = "" ∧
    (onmessageStep sampleActiveState turnMsg ⟨0, 7⟩).1.messages =
      sampleActiveState.messages ++
        [{ id := "7", text := "hi", sender := Sender.user, timestamp := 7 },
         { id := "8", text := "hola", sender := Sender.model, timestamp := 7 }] := by
  have h := c4_transcript_assembly sampleActiveState turnMsg ⟨0, 7⟩
  refine ⟨rfl, ?_, ?_, ?_⟩
  · rw [h.1]
    decide
  · rw [h.2.1]
    decide
  · rw [h.2.2.2 rfl]
    decide

/-- Witness for C1 at a concrete live state and audio message. -/
theorem c1_witness :
    audioMsg.inlineData = some [0, 0] ∧ ([0, 0] : List Nat) ≠ [] ∧
    sampleActiveState.outputContext = true ∧
    schedulesOf (onmessageStep sampleActiveState audioMsg ⟨1, 0⟩).2 =
      [((if sampleActiveState.nextStartTime < (1 : ℚ) then (1 : ℚ) + 5 / 100
         else sampleActiveState.nextStartTime),
        decodeAudioDataDuration [0, 0] AUDIO_OUTPUT_SAMPLE_RATE)] ∧
    (onmessageStep sampleActiveState audioMsg ⟨1, 0⟩).1.nextStartTime =
      (if sampleActiveState.nextStartTime < (1 : ℚ) then (1 : ℚ) + 5 / 100
       else sampleActiveState.nextStartTime) +
        decodeAudioDataDuration [0, 0] AUDIO_OUTPUT_SAMPLE_RATE :=
  ⟨rfl, by decide, rfl,
   (c1_playback_clock_arithmetic sampleActiveState audioMsg ⟨1, 0⟩ [0, 0] rfl
      (by decide) rfl).1,
   (c1_playback_clock_arithmetic sampleActiveState audioMsg ⟨1, 0⟩ [0, 0] rfl
      (by decide) rfl).2⟩

/-- C9: the chat list always consists of user/model pairs.  In every state
reachable from the initial state the messages list has even length, every
message at an even index is from the user and every message at an odd index
is from the model, because the only operation that modifies the list appends
exactly one user message immediately followed by one model message. -/
theorem c9_chat_user_model_pairs (t : List Event) :
    (run initState t).1.messages.length % 2 = 0 ∧
    ∀ i, i < (run initState t).1.messages.length →
      ((run initState t).1.messages.getD i ⟨"", "", Sender.user, 0⟩).sender =
        if i % 2 = 0 then Sender.user else Sender.model := by
  have h := run_paired t initState trivial
  exact ⟨paired_length _ h, fun i hi => paired_getD _ h i hi⟩

/-- Witness for C9 on a concrete trace producing one message pair. -/
theorem c9_witness :
    0 < (run initState [Event.onmessage turnMsg ⟨0, 7⟩]).1.messages.length ∧
    (run initState [Event.onmessage turnMsg ⟨0, 7⟩]).1.messages.length % 2 = 0 ∧
    ((run initState [Event.onmessage turnMsg ⟨0, 7⟩]).1.messages.getD 0
        ⟨"", "", Sender.user, 0⟩).sender =
      (if 0 % 2 = 0 then Sender.user else Sender.model) :=
  ⟨by decide, (c9_chat_user_model_pairs [Event.onmessage turnMsg ⟨0, 7⟩]).1,
   (c9_chat_user_model_pairs [Event.onmessage turnMsg ⟨0, 7⟩]).2 0 (by decide)⟩

/-- C6: analyser noninterference.  The analyser readings consumed by the
visualizer frames never influence processing: two runs whose event traces
differ only in the readings carried by `render` events send the same audio
chunks to the session, produce the same chat messages, and build the same
playback schedule (indeed the entire hook state and effect trace agree). -/
theorem c6_analyser_noninterference (s : HookState) (t₁ t₂ : List Event)
    (h : t₁.map scrubReadings = t₂.map scrubReadings) :
    sentChunksOf (run s t₁).2 = sentChunksOf (run s t₂).2 ∧
    (run s t₁).1.messages = (run s t₂).1.messages ∧
    schedulesOf (run s t₁).2 = schedulesOf (run s t₂).2 ∧
    run s t₁ = run s t₂ := by
  rw [run_scrub_congr t₁ t₂ s h]
  exact ⟨rfl, rfl, rfl, rfl⟩

/-- Witness for C6 on two concrete traces differing only in the readings. -/
theorem c6_witness :
    ([Event.render [1] [2], Event.onclose].map scrubReadings =
      [Event.render [] [3], Event.onclose].map scrubReadings) ∧
    run initState [Event.render [1] [2], Event.onclose] =
      run initState [Event.render [] [3], Event.onclose] :=
  ⟨rfl,
   (c6_analyser_noninterference initState
      [Event.render [1] [2], Event.onclose]
      [Event.render [] [3], Event.onclose] rfl).2.2.2⟩

/-- Witness for C3 at a concrete live state and a delivered buffer. -/
theorem c3_witness :
    sampleActiveState.session = true ∧
    onaudioprocessStep sampleActiveState [[0]] =
      (sampleActiveState,
       [Effect.sentRealtimeInput
          (createPcmBlob ([[(0 : ℚ)]].getD 0 []) AUDIO_INPUT_SAMPLE_RATE)]) :=
  ⟨rfl, c3_fixed_chunk_pipeline.2.2 sampleActiveState [[0]] rfl⟩

end LinguaFlow
